import Mathlib

/-!
# Football Performance Model — verification of the scoring core

Shallow embedding of the scoring pipeline of `src/app.py`:
`calculate_cav`, `get_calculated_om`, `ROLE_WEIGHTS`, the Action Log
aggregation (Tab 4) and the Rating formula (Tab 5).  Numbers are modelled
as rationals (`ℚ`); all the literals appearing in the code (5.5, 8.3,
0.05, …) are exact decimal fractions, so `ℚ` reproduces the Python float
arithmetic exactly on every input considered here.
-/

namespace FPM

/-- A value stored under one quality key of an action row.
`missing` models an absent key (Python `row.get(k, 5.5)` returns the
default 5.5), `invalid` models a present value on which `float(...)`
raises (`None`, a non-numeric string, …), `num q` a numeric value. -/
inductive FieldVal where
  | missing
  | invalid
  | num (q : ℚ)
deriving DecidableEq, Repr

/-- Models `float(row.get(key, 5.5))`: an absent key yields 5.5, an
unconvertible value raises (here: `none`), a numeric value converts. -/
def FieldVal.toNum? : FieldVal → Option ℚ
  | .missing => some 5.5
  | .invalid => none
  | .num q => some q

/-- The numeric reading of a field under the per-field neutral fallback:
anything that is not a number reads as 5.5. -/
def FieldVal.orNeutral : FieldVal → ℚ
  | .num q => q
  | _ => 5.5

/-- One row of the Action Log grid: the five quality fields and the
`Mistake Type` cell (`none` = key absent). -/
structure ActionRow where
  DQ : FieldVal
  EQ : FieldVal
  CD : FieldVal
  TA : FieldVal
  LOP : FieldVal
  mistakeType : Option String
deriving DecidableEq, Repr

/-- `True` iff some quality field holds a present but non-numeric value,
i.e. iff the Python `try` block raises. -/
def ActionRow.hasInvalid (row : ActionRow) : Bool :=
  row.DQ == .invalid || row.EQ == .invalid || row.CD == .invalid ||
    row.TA == .invalid || row.LOP == .invalid

/-- Row whose five quality fields are the given numbers. -/
def mkRow (dq eq cd ta lop : ℚ) (m : Option String) : ActionRow :=
  ⟨.num dq, .num eq, .num cd, .num ta, .num lop, m⟩

/-- `calculate_cav` of `src/app.py` (lines 125–134).  The `try` body
reads the five fields in order; the first present-but-non-numeric value
raises and the `except` returns 5.5 for the whole row, so the result
only depends on whether some field is invalid, not on which one. -/
def calculate_cav (row : ActionRow) : ℚ :=
  match row.DQ.toNum?, row.EQ.toNum?, row.CD.toNum?, row.TA.toNum?, row.LOP.toNum? with
  | some dq, some eq', some cd, some ta, some lop =>
      let raw := (2 * dq + 2 * eq' + 1.5 * cd + 1.5 * ta + 1 * lop) / 8
      let m_type := row.mistakeType.getD "None"
      let cap : ℚ :=
        if m_type = "Type A (Decision)" then 4.0
        else if m_type = "Type B (Execution)" then 8.3
        else if m_type = "Type C (Forced)" then 7.0
        else 10.0
      min raw cap
  | _, _, _, _, _ => 5.5

/-- The raw-score formula `(2·DQ + 2·EQ + 1.5·CD + 1.5·TA + 1·LOP) / 8`
as the spec states it, over plain numbers. -/
def rawOf (dq eq cd ta lop : ℚ) : ℚ :=
  (2 * dq + 2 * eq + 1.5 * cd + 1.5 * ta + 1 * lop) / 8

/-- The mistake-cap table as the spec states it (`none` = key absent,
treated like "None"; any unrecognized string caps at 10.0). -/
def claimCap (m : Option String) : ℚ :=
  let s := m.getD "None"
  if s = "Type A (Decision)" then 4.0
  else if s = "Type B (Execution)" then 8.3
  else if s = "Type C (Forced)" then 7.0
  else 10.0

/-- One stat record as read back from `stats.json`: the "Goals" or
"Assists" key may be absent (`none`); `get("Goals", 0)` defaults to 0. -/
structure StatRecord where
  Goals : Option ℚ
  Assists : Option ℚ
deriving DecidableEq, Repr

/-- The stats dictionary key `f"{p_name}_m_{m_id}"`. -/
def statKey (p : String) (m : ℤ) : String :=
  p ++ "_m_" ++ toString m

/-- The multiplier expression `min(1.0 + g*0.1 + a*0.05, 1.5)` used by
`get_calculated_om` once a record is found. -/
def omFormula (g a : ℚ) : ℚ :=
  min (1.0 + g * 0.1 + a * 0.05) 1.5

/-- `get_calculated_om` of `src/app.py` (lines 136–142).  `stats` stands
for `st.session_state.stats` (a dictionary, here a lookup function). -/
def get_calculated_om (stats : String → Option StatRecord)
    (p_name : String) (m_id : Option ℤ) : ℚ :=
  if p_name = "None" ∨ m_id = none then 1.0
  else
    match m_id with
    | none => 1.0
    | some m =>
      match stats (statKey p_name m) with
      | some r => omFormula (r.Goals.getD 0) (r.Assists.getD 0)
      | none => 1.0

/-- One row of the role-weight table. -/
structure Weights where
  wAQC : ℚ
  wHIS : ℚ
  wEC : ℚ
  wTII : ℚ
  wIBI : ℚ
deriving DecidableEq, Repr

/-- The sum of the five weights of a row. -/
def rowSum (w : Weights) : ℚ :=
  w.wAQC + w.wHIS + w.wEC + w.wTII + w.wIBI

/-- `ROLE_WEIGHTS` of `src/app.py` (lines 144–150). -/
def ROLE_WEIGHTS : String → Option Weights
  | "CF / Striker" => some ⟨0.15, 0.35, 0.10, 0.10, 0.30⟩
  | "Winger"       => some ⟨0.20, 0.30, 0.15, 0.10, 0.25⟩
  | "AM / 10"      => some ⟨0.25, 0.25, 0.15, 0.15, 0.20⟩
  | "CM / 8"       => some ⟨0.30, 0.15, 0.30, 0.20, 0.05⟩
  | "DM / 6"       => some ⟨0.35, 0.10, 0.35, 0.25, 0.00⟩
  | _ => none

/-- The Action Log aggregation of Tab 4 (`src/app.py` lines 257–263):
skipped entirely on an empty grid (`if not ed_cav.empty`), otherwise
`aqc = mean(CAV)` and `his = count(CAV ≥ 7.0) / count · 100`. -/
def aggregate (rows : List ActionRow) : Option (ℚ × ℚ) :=
  if rows = [] then none
  else
    let cavs := rows.map calculate_cav
    some (cavs.sum / rows.length,
      (((cavs.filter (fun c => 7.0 ≤ c)).length : ℚ) / rows.length) * 100)

/-- The Rating formula of Tab 5 (`src/app.py` line 278):
`(wAQC·aqc·10 + wHIS·his + wEC·ec + wTII·tii + wIBI·ibi) · om`. -/
def final_rating (w : Weights) (aqc his ec tii ibi om : ℚ) : ℚ :=
  (w.wAQC * aqc * 10 + w.wHIS * his + w.wEC * ec + w.wTII * tii
    + w.wIBI * ibi) * om

/-- Modelled from the spec: the full `computeMPR` contract (§4.5), whose
SCI- and PI-bearing revision is not among the source files.
`weightedSum = wAQC·(AQC·10) + wHIS·HIS + wEC·(EC·SCI) + wTII·TII +
wIBI·IBI` and `MPR = weightedSum · OM · PI`. -/
def computeMPR (w : Weights) (aqc his ec sci tii ibi om piv : ℚ) : ℚ :=
  (w.wAQC * (aqc * 10) + w.wHIS * his + w.wEC * (ec * sci)
    + w.wTII * tii + w.wIBI * ibi) * om * piv

/-- Modelled from the spec: the consistency estimate of §4.2
(`EC = clip(1 − stddev(CAV)/5, 0, 1)` for ≥ 2 actions, defaulting to
1.0 for 0 or 1 actions); the aggregation code in `src/app.py` computes
no EC (it is a manual input on Tab 5). -/
noncomputable def ecEstimate (cavs : List ℚ) : ℝ :=
  if cavs.length ≤ 1 then 1
  else
    let n : ℝ := cavs.length
    let mean : ℝ := ((cavs.map (fun c => (c : ℝ))).sum) / n
    let sd : ℝ := Real.sqrt (((cavs.map (fun c => ((c : ℝ) - mean) ^ 2)).sum) / n)
    max 0 (min 1 (1 - sd / 5))

/-- Concrete stats table used to instantiate the resolver theorems. -/
def statsEx : String → Option StatRecord :=
  fun k => if k = "Alice_m_1" then some ⟨some 2, some 1⟩ else none

/-- Concrete stats table with a record lacking the "Goals" key. -/
def statsEx2 : String → Option StatRecord :=
  fun k => if k = "Bob_m_2" then some ⟨none, some 4⟩ else none

/-! ## Helper lemmas -/

/-- On a row whose five quality fields are numeric, `calculate_cav` is
`min rawScore cap` with the raw score and the cap table of the spec. -/
lemma cav_mkRow (dq eq cd ta lop : ℚ) (m : Option String) :
    calculate_cav (mkRow dq eq cd ta lop m)
      = min (rawOf dq eq cd ta lop) (claimCap m) := by
  simp [calculate_cav, mkRow, FieldVal.toNum?, rawOf, claimCap]

/-- Every entry of the mistake-cap table is at least 4. -/
lemma claimCap_ge_four (m : Option String) : (4 : ℚ) ≤ claimCap m := by
  simp only [claimCap]
  split_ifs <;> norm_num

/-- Cap table at "Type A (Decision)". -/
lemma claimCap_A : claimCap (some "Type A (Decision)") = 4.0 := by
  simp [claimCap]

/-- Cap table at "Type B (Execution)". -/
lemma claimCap_B : claimCap (some "Type B (Execution)") = 8.3 := by
  simp [claimCap]

/-- Cap table at "Type C (Forced)". -/
lemma claimCap_C : claimCap (some "Type C (Forced)") = 7.0 := by
  simp [claimCap]

/-- Cap table at an absent mistake type. -/
lemma claimCap_none : claimCap none = 10.0 := by
  simp [claimCap]

/-! ## Claims -/

/-- C1: the claim states that every row of the role-weight table sums to
1.0 within 1e-9.  The first four rows do, but the "DM / 6" row of
`ROLE_WEIGHTS` sums to 1.05, off by far more than the tolerance. -/
theorem C1_dm6_row_sum :
    ROLE_WEIGHTS "DM / 6" = some ⟨0.35, 0.10, 0.35, 0.25, 0.00⟩ ∧
    rowSum ⟨0.35, 0.10, 0.35, 0.25, 0.00⟩ = 21 / 20 ∧
    ¬ |(21 / 20 : ℚ) - 1| ≤ 1e-9 ∧
    (ROLE_WEIGHTS "CF / Striker").map rowSum = some 1 ∧
    (ROLE_WEIGHTS "Winger").map rowSum = some 1 ∧
    (ROLE_WEIGHTS "AM / 10").map rowSum = some 1 ∧
    (ROLE_WEIGHTS "CM / 8").map rowSum = some 1 := by
  refine ⟨rfl, by norm_num [rowSum], by rw [abs_le]; norm_num, ?_, ?_, ?_, ?_⟩ <;>
    · show Option.map rowSum (some _) = some 1
      simp only [Option.map, rowSum]
      norm_num

/-- C2 counterexample: with every quality field equal to 8 the raw score
is 8 (> 4), and `CAV(Type B) = 8 > 7 = CAV(Type C)`, refuting the
claimed ordering `CAV(TypeB) ≤ CAV(TypeC)`. -/
theorem C2_counterexample :
    (4 : ℚ) < rawOf 8 8 8 8 8 ∧
    calculate_cav (mkRow 8 8 8 8 8 (some "Type B (Execution)")) = 8 ∧
    calculate_cav (mkRow 8 8 8 8 8 (some "Type C (Forced)")) = 7 ∧
    ¬ calculate_cav (mkRow 8 8 8 8 8 (some "Type B (Execution)"))
        ≤ calculate_cav (mkRow 8 8 8 8 8 (some "Type C (Forced)")) := by
  rw [cav_mkRow, cav_mkRow, claimCap_B, claimCap_C]
  norm_num [rawOf, min_def]

/-- C2 (amended): for identical quality fields the caps order the action
values as `CAV(TypeA) ≤ CAV(TypeC) ≤ CAV(TypeB) ≤ CAV(None)` — Type B's
8.3 cap is more lenient than Type C's 7.0 cap. -/
theorem C2_cap_ordering (dq eq cd ta lop : ℚ)
    (h : 4 < rawOf dq eq cd ta lop) :
    calculate_cav (mkRow dq eq cd ta lop (some "Type A (Decision)"))
      ≤ calculate_cav (mkRow dq eq cd ta lop (some "Type C (Forced)")) ∧
    calculate_cav (mkRow dq eq cd ta lop (some "Type C (Forced)"))
      ≤ calculate_cav (mkRow dq eq cd ta lop (some "Type B (Execution)")) ∧
    calculate_cav (mkRow dq eq cd ta lop (some "Type B (Execution)"))
      ≤ calculate_cav (mkRow dq eq cd ta lop none) := by
  rw [cav_mkRow, cav_mkRow, cav_mkRow, cav_mkRow,
    claimCap_A, claimCap_B, claimCap_C, claimCap_none]
  refine ⟨min_le_min le_rfl ?_, min_le_min le_rfl ?_, min_le_min le_rfl ?_⟩ <;>
    norm_num

/-- C2 witness: the amended ordering at the all-nines action, whose raw
score 9 exceeds 4. -/
theorem C2_cap_ordering_witness :
    calculate_cav (mkRow 9 9 9 9 9 (some "Type A (Decision)"))
      ≤ calculate_cav (mkRow 9 9 9 9 9 (some "Type C (Forced)")) ∧
    calculate_cav (mkRow 9 9 9 9 9 (some "Type C (Forced)"))
      ≤ calculate_cav (mkRow 9 9 9 9 9 (some "Type B (Execution)")) ∧
    calculate_cav (mkRow 9 9 9 9 9 (some "Type B (Execution)"))
      ≤ calculate_cav (mkRow 9 9 9 9 9 none) :=
  C2_cap_ordering 9 9 9 9 9 (by norm_num [rawOf])

/-- C3: on numeric quality fields `calculate_cav` returns
`min rawScore cap`, with caps 4.0 / 8.3 / 7.0 for the three mistake
types and 10.0 for an absent or unrecognized mistake type. -/
theorem C3_cav_formula :
    (∀ dq eq cd ta lop : ℚ, ∀ m : Option String,
      calculate_cav (mkRow dq eq cd ta lop m)
        = min (rawOf dq eq cd ta lop) (claimCap m)) ∧
    claimCap (some "Type A (Decision)") = 4.0 ∧
    claimCap (some "Type B (Execution)") = 8.3 ∧
    claimCap (some "Type C (Forced)") = 7.0 ∧
    claimCap none = 10.0 ∧
    (∀ s : String, s ≠ "Type A (Decision)" → s ≠ "Type B (Execution)" →
      s ≠ "Type C (Forced)" → claimCap (some s) = 10.0) := by
  refine ⟨cav_mkRow, claimCap_A, claimCap_B, claimCap_C, claimCap_none, ?_⟩
  intro s h1 h2 h3
  simp [claimCap, h1, h2, h3]

/-- C3 witness: the formula at a concrete action with the unrecognized
mistake string "Type D", whose cap is 10.0. -/
theorem C3_cav_formula_witness :
    calculate_cav (mkRow 7 8 5 6 4 (some "Type D"))
      = min (rawOf 7 8 5 6 4) (claimCap (some "Type D")) ∧
    claimCap (some "Type D") = 10.0 :=
  ⟨C3_cav_formula.1 7 8 5 6 4 (some "Type D"),
   C3_cav_formula.2.2.2.2.2 "Type D" (by decide) (by decide) (by decide)⟩

/-- C4 counterexample: on a row whose DQ cell holds a non-numeric value
and whose other four fields are all 10, the code returns 5.5 for the
whole action, while per-field substitution of 5.5 for DQ alone would
give `rawOf 5.5 10 10 10 10 = 8.875`. -/
theorem C4_counterexample :
    calculate_cav ⟨.invalid, .num 10, .num 10, .num 10, .num 10, none⟩ = 5.5 ∧
    rawOf 5.5 10 10 10 10 = 8.875 ∧
    (5.5 : ℚ) ≠ 8.875 := by
  refine ⟨rfl, by norm_num [rawOf], by norm_num⟩

/-- C4 (amended): a quality field whose key is absent is substituted
with 5.5 and the remaining fields still contribute; but a present null
or non-numeric value makes the whole action score 5.5 (the function
never raises either way). -/
theorem C4_fallback (row : ActionRow) :
    calculate_cav row =
      if row.hasInvalid then 5.5
      else min (rawOf row.DQ.orNeutral row.EQ.orNeutral row.CD.orNeutral
            row.TA.orNeutral row.LOP.orNeutral) (claimCap row.mistakeType) := by
  obtain ⟨dq, eq, cd, ta, lop, m⟩ := row
  cases dq <;> cases eq <;> cases cd <;> cases ta <;> cases lop <;>
    simp [calculate_cav, ActionRow.hasInvalid, FieldVal.toNum?,
      FieldVal.orNeutral, rawOf, claimCap]

/-- C5: the fixed three-action match of §8.  CAVs are 6.3125, 8.5625 and
4.0 (raw 5.0625 capped by Type A); the aggregation yields
`AQC = 151/24 = 6.2917` to 4 d.p. and `HIS = 1/3` (one of three actions
reaches 7.0; the code stores it as the percentage 100/3 = 33.3); with
the CM / 8 weights and EC = 75, TII = 50, IBI = 10, OM = 1 (SCI and PI
are absent from the code, i.e. fixed at their neutral 1.0), the rating
is exactly 56.875. -/
theorem C5_concrete_match :
    calculate_cav (mkRow 7 8 5 6 4 none) = 6.3125 ∧
    calculate_cav (mkRow 9 9 8 9 7 none) = 8.5625 ∧
    rawOf 4 5 6 5 6 = 5.0625 ∧
    calculate_cav (mkRow 4 5 6 5 6 (some "Type A (Decision)")) = 4.0 ∧
    aggregate [mkRow 7 8 5 6 4 none, mkRow 9 9 8 9 7 none,
        mkRow 4 5 6 5 6 (some "Type A (Decision)")]
      = some (151 / 24, (1 / 3) * 100) ∧
    (([mkRow 7 8 5 6 4 none, mkRow 9 9 8 9 7 none,
        mkRow 4 5 6 5 6 (some "Type A (Decision)")].map
          calculate_cav).filter (fun c => 7.0 ≤ c)).length = 1 ∧
    [mkRow 7 8 5 6 4 none, mkRow 9 9 8 9 7 none,
      mkRow 4 5 6 5 6 (some "Type A (Decision)")].length = 3 ∧
    |(151 / 24 : ℚ) - 6.2917| < 0.00005 ∧
    ROLE_WEIGHTS "CM / 8" = some ⟨0.30, 0.15, 0.30, 0.20, 0.05⟩ ∧
    final_rating ⟨0.30, 0.15, 0.30, 0.20, 0.05⟩ (151 / 24) (100 / 3)
      75 50 10 1 = 56.875 := by
  have h1 : calculate_cav (mkRow 7 8 5 6 4 none) = 6.3125 := by
    rw [cav_mkRow, claimCap_none]; norm_num [rawOf, min_def]
  have h2 : calculate_cav (mkRow 9 9 8 9 7 none) = 8.5625 := by
    rw [cav_mkRow, claimCap_none]; norm_num [rawOf, min_def]
  have h3 : calculate_cav (mkRow 4 5 6 5 6 (some "Type A (Decision)")) = 4.0 := by
    rw [cav_mkRow, claimCap_A]; norm_num [rawOf, min_def]
  have hfil : (([mkRow 7 8 5 6 4 none, mkRow 9 9 8 9 7 none,
      mkRow 4 5 6 5 6 (some "Type A (Decision)")].map
        calculate_cav).filter (fun c => 7.0 ≤ c)).length = 1 := by
    simp only [List.map_cons, List.map_nil, h1, h2, h3]
    norm_num [List.filter]
  refine ⟨h1, h2, by norm_num [rawOf], h3, ?_, hfil, rfl,
    by rw [abs_lt]; constructor <;> norm_num, rfl,
    by norm_num [final_rating]⟩
  have hne : [mkRow 7 8 5 6 4 none, mkRow 9 9 8 9 7 none,
      mkRow 4 5 6 5 6 (some "Type A (Decision)")] ≠ ([] : List ActionRow) := by
    simp
  rw [aggregate, if_neg hne]
  refine congrArg some (Prod.ext ?_ ?_)
  · simp only [List.map_cons, List.map_nil, h1, h2, h3]
    norm_num
  · show (((([mkRow 7 8 5 6 4 none, mkRow 9 9 8 9 7 none,
        mkRow 4 5 6 5 6 (some "Type A (Decision)")].map
          calculate_cav).filter (fun c => 7.0 ≤ c)).length : ℚ) / 3) * 100
      = (1 / 3) * 100
    rw [hfil]
    norm_num

/-- C6: the full MPR contract (modelled from the spec, §4.5): the
weighted sum applies SCI to the EC term only, the result is multiplied
by OM and PI, PI defaults to 1.0 when not supplied, and the
`final` expression of Tab 5 in the source is exactly this contract at
SCI = 1 with the defaulted PI = 1. -/
theorem C6_mpr_structure :
    (∀ (w : Weights) (aqc his ec sci tii ibi om piv : ℚ),
      computeMPR w aqc his ec sci tii ibi om piv =
        (w.wAQC * (aqc * 10) + w.wHIS * his + w.wEC * (ec * sci)
          + w.wTII * tii + w.wIBI * ibi) * om * piv) ∧
    (∀ (w : Weights) (aqc his ec sci tii ibi om piv : ℚ),
      computeMPR w aqc his ec sci tii ibi om piv
          - computeMPR w aqc his ec 1 tii ibi om piv
        = w.wEC * ec * (sci - 1) * om * piv) ∧
    (∀ (w : Weights) (aqc his ec tii ibi om : ℚ),
      final_rating w aqc his ec tii ibi om
        = computeMPR w aqc his ec 1 tii ibi om 1) := by
  refine ⟨fun w aqc his ec sci tii ibi om piv => rfl,
    fun w aqc his ec sci tii ibi om piv => ?_,
    fun w aqc his ec tii ibi om => ?_⟩
  · simp only [computeMPR]; ring
  · simp only [computeMPR, final_rating]; ring

/-- C7: when a stat record with numeric goals `g ≥ 0` and assists
`a ≥ 0` exists for the player/match key, the resolver returns
`min(1 + 0.1·g + 0.05·a, 1.5)`; it returns 1.0 when no record exists;
the multiplier expression is monotone in goals and in assists and lies
in [1.0, 1.5]. -/
theorem C7_om_resolver :
    (∀ (stats : String → Option StatRecord) (p : String) (m g a : ℤ),
      p ≠ "None" → stats (statKey p m) = some ⟨some (g : ℚ), some (a : ℚ)⟩ →
      get_calculated_om stats p (some m)
        = min (1.0 + (g : ℚ) * 0.1 + (a : ℚ) * 0.05) 1.5) ∧
    (∀ (stats : String → Option StatRecord) (p : String) (m : ℤ),
      stats (statKey p m) = none → get_calculated_om stats p (some m) = 1.0) ∧
    (∀ g1 g2 a : ℚ, g1 ≤ g2 → omFormula g1 a ≤ omFormula g2 a) ∧
    (∀ g a1 a2 : ℚ, a1 ≤ a2 → omFormula g a1 ≤ omFormula g a2) ∧
    (∀ g a : ℚ, 0 ≤ g → 0 ≤ a →
      1.0 ≤ omFormula g a ∧ omFormula g a ≤ 1.5) := by
  refine ⟨?_, ?_, ?_, ?_, ?_⟩
  · intro stats p m g a hp hs
    simp [get_calculated_om, hp, hs, omFormula]
  · intro stats p m hs
    by_cases hp : p = "None" <;> simp [get_calculated_om, hp, hs]
  · intro g1 g2 a h
    simp only [omFormula]
    exact min_le_min (by linarith) le_rfl
  · intro g a1 a2 h
    simp only [omFormula]
    exact min_le_min (by linarith) le_rfl
  · intro g a hg ha
    constructor
    · simp only [omFormula]
      refine le_min (by linarith) (by norm_num)
    · exact min_le_right _ _

/-- C7 witness: the resolver at the concrete table `statsEx` (2 goals,
1 assist for Alice in match 1) together with the bounds at (2, 1). -/
theorem C7_om_resolver_witness :
    get_calculated_om statsEx "Alice" (some 1)
      = min (1.0 + ((2 : ℤ) : ℚ) * 0.1 + ((1 : ℤ) : ℚ) * 0.05) 1.5 ∧
    (1.0 ≤ omFormula 2 1 ∧ omFormula 2 1 ≤ 1.5) := by
  have hk : statKey "Alice" 1 = "Alice_m_1" := rfl
  refine ⟨C7_om_resolver.1 statsEx "Alice" 1 2 1 (by decide) ?_,
    C7_om_resolver.2.2.2.2 2 1 (by norm_num) (by norm_num)⟩
  rw [hk]
  simp [statsEx]

/-- C8: with all five quality fields in [1,10] the raw score lies in
[1,10], the action value lies in [1, cap] and never exceeds the raw
score. -/
theorem C8_bounds (dq eq cd ta lop : ℚ) (m : Option String)
    (h1 : 1 ≤ dq) (h2 : dq ≤ 10) (h3 : 1 ≤ eq) (h4 : eq ≤ 10)
    (h5 : 1 ≤ cd) (h6 : cd ≤ 10) (h7 : 1 ≤ ta) (h8 : ta ≤ 10)
    (h9 : 1 ≤ lop) (h10 : lop ≤ 10) :
    (1 ≤ rawOf dq eq cd ta lop ∧ rawOf dq eq cd ta lop ≤ 10) ∧
    (1 ≤ calculate_cav (mkRow dq eq cd ta lop m) ∧
      calculate_cav (mkRow dq eq cd ta lop m) ≤ claimCap m) ∧
    calculate_cav (mkRow dq eq cd ta lop m) ≤ rawOf dq eq cd ta lop := by
  have hraw1 : 1 ≤ rawOf dq eq cd ta lop := by
    simp only [rawOf]; linarith
  have hraw10 : rawOf dq eq cd ta lop ≤ 10 := by
    simp only [rawOf]; linarith
  have hcap := claimCap_ge_four m
  rw [cav_mkRow]
  exact ⟨⟨hraw1, hraw10⟩,
    ⟨le_min hraw1 (by linarith), min_le_right _ _⟩, min_le_left _ _⟩

/-- C8 witness: the bounds at the all-fives action with no mistake. -/
theorem C8_bounds_witness :
    (1 ≤ rawOf 5 5 5 5 5 ∧ rawOf 5 5 5 5 5 ≤ 10) ∧
    (1 ≤ calculate_cav (mkRow 5 5 5 5 5 none) ∧
      calculate_cav (mkRow 5 5 5 5 5 none) ≤ claimCap none) ∧
    calculate_cav (mkRow 5 5 5 5 5 none) ≤ rawOf 5 5 5 5 5 :=
  C8_bounds 5 5 5 5 5 none (by norm_num) (by norm_num) (by norm_num)
    (by norm_num) (by norm_num) (by norm_num) (by norm_num) (by norm_num)
    (by norm_num) (by norm_num)

/-- C9: the Tab 4 aggregation is skipped entirely on an empty grid
(`aggregate [] = none` — no division by zero, a defined "undefined"
result); on any non-empty grid AQC is the arithmetic mean of the CAVs
and HIS is the count of CAVs ≥ 7.0 divided by the number of actions,
stored as a percentage (× 100); the spec's consistency estimate is 1.0
on the empty set. -/
theorem C9_aggregate_safe :
    aggregate [] = none ∧
    (∀ rows : List ActionRow, rows ≠ [] →
      aggregate rows = some ((rows.map calculate_cav).sum / rows.length,
        ((((rows.map calculate_cav).filter (fun c => 7.0 ≤ c)).length : ℚ)
          / rows.length) * 100)) ∧
    ecEstimate [] = 1 := by
  refine ⟨rfl, fun rows h => by rw [aggregate, if_neg h], by simp [ecEstimate]⟩

/-- C9 witness: the aggregation formula at a one-action grid whose only
CAV is 10, yielding AQC = 10 and HIS = 100 (per cent). -/
theorem C9_aggregate_safe_witness :
    aggregate [mkRow 10 10 10 10 10 none] = some (10, 100) := by
  have h := C9_aggregate_safe.2.1 [mkRow 10 10 10 10 10 none]
    (by simp)
  rw [h]
  have hc : calculate_cav (mkRow 10 10 10 10 10 none) = 10 := by
    rw [cav_mkRow, claimCap_none]; norm_num [rawOf, min_def]
  simp only [List.map_cons, List.map_nil, hc]
  norm_num [List.filter]

/-- C10: the resolver returns 1.0 for the sentinel player "None" and
for an absent match id, whatever the stats table holds; and a stored
record lacking the "Goals" (resp. "Assists") key contributes 0 for the
missing value in the multiplier formula. -/
theorem C10_om_neutral :
    (∀ (stats : String → Option StatRecord) (m : Option ℤ),
      get_calculated_om stats "None" m = 1.0) ∧
    (∀ (stats : String → Option StatRecord) (p : String),
      get_calculated_om stats p none = 1.0) ∧
    (∀ (stats : String → Option StatRecord) (p : String) (m : ℤ) (a : ℚ),
      p ≠ "None" → stats (statKey p m) = some ⟨none, some a⟩ →
      get_calculated_om stats p (some m)
        = min (1.0 + 0 * 0.1 + a * 0.05) 1.5) ∧
    (∀ (stats : String → Option StatRecord) (p : String) (m : ℤ) (g : ℚ),
      p ≠ "None" → stats (statKey p m) = some ⟨some g, none⟩ →
      get_calculated_om stats p (some m)
        = min (1.0 + g * 0.1 + 0 * 0.05) 1.5) := by
  refine ⟨?_, ?_, ?_, ?_⟩
  · intro stats m
    simp [get_calculated_om]
  · intro stats p
    simp [get_calculated_om]
  · intro stats p m a hp hs
    simp [get_calculated_om, hp, hs, omFormula]
  · intro stats p m g hp hs
    simp [get_calculated_om, hp, hs, omFormula]

/-- C10 witness: the resolver at the concrete table `statsEx2`, whose
record for Bob in match 2 lacks the "Goals" key and stores 4 assists. -/
theorem C10_om_neutral_witness :
    get_calculated_om statsEx2 "Bob" (some 2)
      = min (1.0 + 0 * 0.1 + (4 : ℚ) * 0.05) 1.5 := by
  have hk : statKey "Bob" 2 = "Bob_m_2" := rfl
  refine C10_om_neutral.2.2.1 statsEx2 "Bob" 2 4 (by decide) ?_
  rw [hk]
  simp [statsEx2]

end FPM
